import Mathlib

/-!
Shallow embedding of `src/streamlit_app.py`, a mood-based movie discovery
front-end over the TMDb REST API, together with theorems settling the
specification's claims about it.

Modelling conventions:
* JSON objects consumed by the app are embedded as structures whose fields are
  `Option`-valued exactly where the Python code accesses them with `.get`
  (a missing key yields the stated default).
* The network layer (`requests.get`) is abstracted as a function producing
  `Except String (Nat × α)`: either a transport error with a message, or an
  HTTP status code paired with the decoded JSON body.
* A Python exception propagating out of a helper is embedded as the `.error`
  branch of `Except`; a caught exception is a `match` on that branch.
* Python integers are `Int`, Python strings are `String`; truthiness tests on
  them (`if kid:`, `if p`) are embedded as explicit comparisons with `0`
  resp. `""`/`None`, matching Python semantics.
-/

set_option autoImplicit false

deriving instance DecidableEq for Except

namespace StreamlitApp

/-- Errors that `tmdb_get` can raise: a network-layer failure
(`requests` exception), a non-success HTTP status turned into an exception by
`resp.raise_for_status()`, or the `RuntimeError` raised when no API key is
configured. -/
inductive TmdbError where
  | transport (msg : String)
  | httpStatus (code : Nat)
  | noApiKey
deriving DecidableEq

/-- Embedding of Python's `str.lower()` as used on the ASCII keyword strings of
this app: lowercase every character. (Structurally recursive counterpart of
`String.toLower`, so that concrete instances evaluate.) -/
def strLower (s : String) : String := ⟨s.data.map Char.toLower⟩

/-- The condition under which `HEADERS` is set (line 13 of the source):
`TMDB_API_KEY and len(TMDB_API_KEY) > 40`, i.e. the key is non-empty (truthy)
and longer than 40 characters, selecting v4 bearer authentication. -/
def bearerAuth (apiKey : String) : Bool :=
  (apiKey != "") && decide (40 < apiKey.length)

/-- Embedding of `resp.raise_for_status()` applied to the outcome of one HTTP
request: a transport failure propagates, a status in `[400, 600)` raises
`HTTPError`, otherwise the JSON body is returned. -/
def raise_for_status {α : Type} (r : Except String (Nat × α)) : Except TmdbError α :=
  match r with
  | .error msg => .error (.transport msg)
  | .ok (status, body) =>
      if 400 ≤ status ∧ status < 600 then .error (.httpStatus status) else .ok body

/-- Embedding of `tmdb_get` (source lines 18-31). The actual HTTP exchange is
abstracted by `fetch`; the two authentication branches issue the same request
in this abstraction (they differ only in where the credential is carried), and
the keyless branch raises `RuntimeError` before any request is made. -/
def tmdb_get {α : Type} (apiKey : String) (fetch : Except String (Nat × α)) :
    Except TmdbError α :=
  if bearerAuth apiKey then
    raise_for_status fetch
  else if apiKey == "" then
    .error .noApiKey
  else
    raise_for_status fetch

/-- One candidate object of a `/search/keyword` response; the code reads
`r.get("name", "")` and `r.get("id")`. -/
structure KeywordCandidate where
  name : Option String
  id : Option Int
deriving DecidableEq

/-- Body of a `/search/keyword` response; the code reads
`data.get("results", [])`. -/
structure KeywordSearchResponse where
  results : Option (List KeywordCandidate)
deriving DecidableEq

/-- Candidate-selection heuristic of `search_keyword_id` (source lines 76-81):
empty candidate list yields `None`; otherwise prefer the first candidate whose
name equals the query case-insensitively, else fall back to the first
candidate, and return that candidate's `id` field. -/
def search_keyword_pick (keyword_name : String) (results : List KeywordCandidate) :
    Option Int :=
  match results with
  | [] => none
  | r0 :: _ =>
      match results.find? (fun r => strLower (r.name.getD "") == strLower keyword_name) with
      | some r => r.id
      | none => r0.id

/-- Embedding of `search_keyword_id` (source lines 70-81) without its
`lru_cache` wrapper, which is modelled separately; `fetch` abstracts the
keyword-search endpoint, keyed by the query string. -/
def search_keyword_id (apiKey : String)
    (fetch : String → Except String (Nat × KeywordSearchResponse))
    (keyword_name : String) : Except TmdbError (Option Int) :=
  match tmdb_get apiKey (fetch keyword_name) with
  | .error e => .error e
  | .ok data => .ok (search_keyword_pick keyword_name (data.results.getD []))

/-- The stubbed keyword-search response of the specification's test vector:
candidates `[{name:"Drama", id:5}, {name:"drama", id:7}]`. -/
def dramaStubResponse : KeywordSearchResponse :=
  { results := some [{ name := some "Drama", id := some 5 },
                     { name := some "drama", id := some 7 }] }

/-- A stub service that answers every keyword-search query with status 200 and
`dramaStubResponse`. -/
def dramaStubFetch : String → Except String (Nat × KeywordSearchResponse) :=
  fun _ => .ok (200, dramaStubResponse)

/-- A second stub response: candidates `[{name:"dramatic", id:3},
{name:"drama", id:9}]`, whose case-insensitive exact match is not first. -/
def dramaticStubResponse : KeywordSearchResponse :=
  { results := some [{ name := some "dramatic", id := some 3 },
                     { name := some "drama", id := some 9 }] }

/-- A stub service answering with `dramaticStubResponse`. -/
def dramaticStubFetch : String → Except String (Nat × KeywordSearchResponse) :=
  fun _ => .ok (200, dramaticStubResponse)

/-- C1 counterexample: on the stub response `[{name:"Drama", id:5},
{name:"drama", id:7}]` with input `"drama"`, `search_keyword_id` does not
return 7 — `"Drama"` already matches case-insensitively, so the first
candidate's id 5 is returned. -/
theorem C1_counterexample :
    ¬ (search_keyword_id "k" dramaStubFetch "drama" = .ok (some 7)) := by
  decide

/-- C1 (amended): on the stub response `[{name:"Drama", id:5},
{name:"drama", id:7}]` with input `"drama"`, `search_keyword_id` returns 5:
among multiple case-insensitive exact matches the first in response order
wins; and a case-insensitive exact match is preferred over response order, as
the response `[{name:"dramatic", id:3}, {name:"drama", id:9}]` resolving to 9
shows. -/
theorem C1_amended_resolution :
    search_keyword_id "k" dramaStubFetch "drama" = .ok (some 5) ∧
    search_keyword_id "k" dramaticStubFetch "drama" = .ok (some 9) := by
  constructor <;> decide

/-- Embedding of `MOOD_MAP` (source lines 37-63): the static mood catalog, a
mapping from mood label to its ordered keyword list, in the source's insertion
order (Python dicts preserve it, and all keys are distinct). -/
def MOOD_MAP : List (String × List String) :=
  [("Feel-Good", ["friendship", "family", "happy ending", "optimism"]),
   ("Heartbreaking", ["tragedy", "death", "illness", "doomed romance"]),
   ("Melancholic", ["nostalgia", "memory", "bittersweet", "loneliness"]),
   ("Wholesome", ["kindness", "friendship", "animals", "found family"]),
   ("Cathartic", ["redemption", "forgiveness", "trauma", "self discovery"]),
   ("Lost / Loneliness", ["isolation", "loneliness", "solitude"]),
   ("Escapist", ["fantasy world", "imagination", "parallel universe", "adventure"]),
   ("Hopeful", ["inspiration", "overcoming obstacles", "resilience"]),
   ("Dark & Gritty", ["neo-noir", "urban decay", "crime", "violence"]),
   ("Weirdcore / Surreal", ["surrealism", "dream", "hallucination", "absurd"]),
   ("Trippy", ["psychedelic", "drugs", "hallucination", "acid"]),
   ("Uplifting", ["sports", "inspiration", "success", "mentor"]),
   ("Sentimental", ["memory", "nostalgia", "family", "childhood"]),
   ("Poetic", ["poetry", "dream", "visual metaphor", "art"]),
   ("Slow Burn", ["psychological", "tension", "atmosphere", "slow burn"]),
   ("Cozy", ["small town", "friendship", "community", "slice of life"]),
   ("Bittersweet Romance", ["romance", "tragedy", "love affair", "forbidden love"]),
   ("Coming of Age", ["coming of age", "teenager", "youth", "self discovery"]),
   ("Existential", ["philosophy", "existentialism", "death", "meaning of life"]),
   ("Dreamlike", ["dream", "fantasy", "surrealism", "vision"]),
   ("Eerie / Haunting", ["ghost", "haunted house", "supernatural", "mystery"]),
   ("Nostalgic", ["retro", "nostalgia", "childhood", "memory"]),
   ("Hope in Darkness", ["war", "survival", "courage", "resistance"]),
   ("Liberating", ["freedom", "rebellion", "escape", "self discovery"]),
   ("Chaotic Energy", ["crime spree", "gang", "anarchy", "violence"])]

/-- Embedding of `MOOD_MAP.get(mood, [])` (source lines 85 and 170): first
entry with the given key, or the empty list when the label is unknown. -/
def moodMapGet (mood : String) : List String :=
  match MOOD_MAP.find? (fun p => p.1 == mood) with
  | some p => p.2
  | none => []

/-- Python truthiness filter applied to a resolved keyword id (`if kid:` at
source line 89): `None` and `0` are falsy, every other integer is truthy. -/
def truthyId (kid : Option Int) : Bool :=
  match kid with
  | none => false
  | some k => k != 0

/-- The accumulator loop of `resolve_mood_to_keyword_ids` (source lines 86-91):
for each keyword name in order, append its resolved id to `ids` when that id
is truthy. `resolve` abstracts the (memoized) `search_keyword_id`'s value. -/
def resolveLoop (resolve : String → Option Int) : List String → List Int → List Int
  | [], ids => ids
  | n :: rest, ids =>
      if truthyId (resolve n) then
        resolveLoop resolve rest (ids ++ [(resolve n).getD 0])
      else
        resolveLoop resolve rest ids

/-- Embedding of `resolve_mood_to_keyword_ids` (source lines 83-91). -/
def resolve_mood_to_keyword_ids (resolve : String → Option Int) (mood : String) :
    List Int :=
  resolveLoop resolve (moodMapGet mood) []

theorem moodMapGet_of_absent (mood : String) (h : mood ∉ MOOD_MAP.map Prod.fst) :
    moodMapGet mood = [] := by
  cases hf : MOOD_MAP.find? (fun p => p.1 == mood) with
  | none => simp [moodMapGet, hf]
  | some q =>
      exfalso
      have h1 : q.1 = mood := by
        have := List.find?_some hf
        exact eq_of_beq this
      have h2 : q ∈ MOOD_MAP := List.mem_of_find?_eq_some hf
      exact h (h1 ▸ List.mem_map_of_mem Prod.fst h2)

/-- C6: mood-catalog lookup never raises; every label present in `MOOD_MAP`
maps to its own non-empty keyword list of at most 6 duplicate-free entries,
and every unknown label maps to the empty list. -/
theorem C6_mood_catalog_lookup :
    (∀ p ∈ MOOD_MAP, moodMapGet p.1 = p.2 ∧ p.2 ≠ [] ∧ p.2.length ≤ 6 ∧ p.2.Nodup) ∧
    (∀ mood, mood ∉ MOOD_MAP.map Prod.fst → moodMapGet mood = []) := by
  constructor
  · decide
  · exact moodMapGet_of_absent

/-- C6 witness: the catalog lookup at the concrete label `"Feel-Good"` and at
the concrete unknown label `"Mystery Mood"`. -/
theorem C6_mood_catalog_lookup_witness :
    moodMapGet "Feel-Good" = ["friendship", "family", "happy ending", "optimism"] ∧
    moodMapGet "Mystery Mood" = [] :=
  ⟨(C6_mood_catalog_lookup.1 ("Feel-Good", ["friendship", "family", "happy ending", "optimism"])
      (by decide)).1,
   C6_mood_catalog_lookup.2 "Mystery Mood" (by decide)⟩

theorem resolveLoop_eq_filterMap (resolve : String → Option Int) :
    ∀ (names : List String) (ids : List Int),
      resolveLoop resolve names ids
        = ids ++ names.filterMap (fun n => if truthyId (resolve n) then resolve n else none) := by
  intro names
  induction names with
  | nil => intro ids; simp [resolveLoop]
  | cons n rest ih =>
      intro ids
      cases hr : resolve n with
      | none => simp [resolveLoop, truthyId, hr, ih]
      | some k =>
          by_cases hk : k = 0
          · simp [resolveLoop, truthyId, hr, hk, ih]
          · simp [resolveLoop, truthyId, hr, hk, ih]

/-- C10: for every resolver behaviour and mood, the resolved identifier list
is the keyword-order-preserving filter-map of the mood's keywords through the
resolver (each keyword contributes at most one entry, and only when its
resolution is truthy — present and nonzero); consequently its length never
exceeds the number of keywords and it never contains 0. -/
theorem C10_resolved_ids_shape (resolve : String → Option Int) (mood : String) :
    resolve_mood_to_keyword_ids resolve mood
      = (moodMapGet mood).filterMap
          (fun n => if truthyId (resolve n) then resolve n else none) ∧
    (resolve_mood_to_keyword_ids resolve mood).length ≤ (moodMapGet mood).length ∧
    (0 : Int) ∉ resolve_mood_to_keyword_ids resolve mood := by
  have heq := resolveLoop_eq_filterMap resolve (moodMapGet mood) []
  have heq2 : resolve_mood_to_keyword_ids resolve mood
      = (moodMapGet mood).filterMap
          (fun n => if truthyId (resolve n) then resolve n else none) := by
    simpa [resolve_mood_to_keyword_ids] using heq
  refine ⟨heq2, ?_, ?_⟩
  · rw [heq2]
    exact List.length_filterMap_le _ _
  · rw [heq2]
    intro hmem
    rcases List.mem_filterMap.mp hmem with ⟨n, _, hn⟩
    by_cases ht : truthyId (resolve n)
    · rw [if_pos ht] at hn
      rw [hn] at ht
      simp [truthyId] at ht
    · rw [if_neg ht] at hn
      exact Option.noConfusion hn

/-- The query-parameter dictionary a discovery call sends to
`/discover/movie` (source lines 117-127). -/
structure DiscoverParams where
  with_keywords : String
  include_adult : String
  language : String
  region : String
  sort_by : String
  vote_count_gte : Int
  page : Int
  primary_release_date_gte : String
  primary_release_date_lte : String
deriving DecidableEq

/-- Body of a `/discover/movie` response as far as the app reads it:
`results` (a list of movie records, opaque to `discover_movies` itself) and
`total_results`. -/
structure DiscoverResponse (μ : Type) where
  results : Option (List μ)
  total_results : Option Int
deriving DecidableEq

/-- Keyword-combinator encoding of `discover_movies` (source lines 111-115):
AND joins the ids with a comma, OR with a pipe. -/
def kwParam (require_all : Bool) (keyword_ids : List Int) : String :=
  if require_all then
    String.intercalate "," (keyword_ids.map toString)
  else
    String.intercalate "|" (keyword_ids.map toString)

/-- The parameter dictionary built by `discover_movies` for a non-empty
identifier list (source lines 117-127). -/
def discoverParams (keyword_ids : List Int) (require_all : Bool)
    (language region : String) (vote_count_gte year_min year_max page : Int)
    (sort_by : String) : DiscoverParams :=
  { with_keywords := kwParam require_all keyword_ids
    include_adult := "false"
    language := language
    region := region
    sort_by := sort_by
    vote_count_gte := vote_count_gte
    page := page
    primary_release_date_gte := toString year_min ++ "-01-01"
    primary_release_date_lte := toString year_max ++ "-12-31" }

/-- Embedding of `discover_movies` (source lines 97-128). Besides the
response, it returns the list of requests issued to the external service, so
that call counts and request contents are observable: the empty-identifier
short-circuit issues none and returns the literal `{"results": []}` (no
`total_results` key), otherwise exactly one request with the built parameters
is issued through `tmdb_get`. -/
def discover_movies (μ : Type) (apiKey : String)
    (fetch : DiscoverParams → Except String (Nat × DiscoverResponse μ))
    (keyword_ids : List Int) (require_all : Bool) (language region : String)
    (vote_count_gte year_min year_max page : Int) (sort_by : String) :
    Except TmdbError (DiscoverResponse μ) × List DiscoverParams :=
  if keyword_ids.isEmpty then
    (.ok { results := some [], total_results := none }, [])
  else
    let params := discoverParams keyword_ids require_all language region
      vote_count_gte year_min year_max page sort_by
    (tmdb_get apiKey (fetch params), [params])

/-- C4: with an empty identifier list, `discover_movies` short-circuits to the
empty result set `{"results": []}` and issues zero requests to the external
service, for every combinator mode and filter. -/
theorem C4_empty_ids_short_circuit (μ : Type) (apiKey : String)
    (fetch : DiscoverParams → Except String (Nat × DiscoverResponse μ))
    (require_all : Bool) (language region : String)
    (vote_count_gte year_min year_max page : Int) (sort_by : String) :
    discover_movies μ apiKey fetch [] require_all language region
        vote_count_gte year_min year_max page sort_by
      = (.ok { results := some [], total_results := none }, []) := by
  simp [discover_movies]

theorem discover_movies_nonempty (μ : Type) (apiKey : String)
    (fetch : DiscoverParams → Except String (Nat × DiscoverResponse μ))
    (keyword_ids : List Int) (h : keyword_ids ≠ []) (require_all : Bool)
    (language region : String) (vote_count_gte year_min year_max page : Int)
    (sort_by : String) :
    discover_movies μ apiKey fetch keyword_ids require_all language region
        vote_count_gte year_min year_max page sort_by
      = (tmdb_get apiKey (fetch (discoverParams keyword_ids require_all language
            region vote_count_gte year_min year_max page sort_by)),
         [discoverParams keyword_ids require_all language region
            vote_count_gte year_min year_max page sort_by]) := by
  simp [discover_movies, h]

/-- C5: for every non-empty identifier list, the single issued discovery
request carries `with_keywords` equal to the comma-join of the identifiers in
ALL mode and the pipe-join in ANY mode; concretely, `[1,2,3]` encodes to
`"1,2,3"` under ALL and `"1|2|3"` under ANY. -/
theorem C5_with_keywords_encoding (μ : Type) (apiKey : String)
    (fetch : DiscoverParams → Except String (Nat × DiscoverResponse μ))
    (keyword_ids : List Int) (h : keyword_ids ≠ []) (require_all : Bool)
    (language region : String) (vote_count_gte year_min year_max page : Int)
    (sort_by : String) :
    (discover_movies μ apiKey fetch keyword_ids require_all language region
        vote_count_gte year_min year_max page sort_by).2.map
          (fun p => p.with_keywords)
      = [if require_all then String.intercalate "," (keyword_ids.map toString)
         else String.intercalate "|" (keyword_ids.map toString)] ∧
    kwParam true [1, 2, 3] = "1,2,3" ∧ kwParam false [1, 2, 3] = "1|2|3" := by
  refine ⟨?_, by decide, by decide⟩
  rw [discover_movies_nonempty μ apiKey fetch keyword_ids h]
  cases require_all <;> simp [discoverParams, kwParam]

/-- C5 witness: at identifiers `[1,2,3]`, ALL mode and a dummy filter, the
issued request's `with_keywords` equals `"1,2,3"`. -/
theorem C5_with_keywords_encoding_witness :
    (discover_movies Unit "k" (fun _ => .error "down") [1, 2, 3] true "en-US" "CH"
        200 1950 2025 1 "vote_average.desc").2.map (fun p => p.with_keywords)
      = [if true then String.intercalate "," ([1, 2, 3].map toString)
         else String.intercalate "|" ([1, 2, 3].map toString)] ∧
    kwParam true [1, 2, 3] = "1,2,3" ∧ kwParam false [1, 2, 3] = "1|2|3" :=
  C5_with_keywords_encoding Unit "k" (fun _ => .error "down") [1, 2, 3]
    (by decide) true "en-US" "CH" 200 1950 2025 1 "vote_average.desc"

/-- C7: for every `year_min` and `year_max` — with no validation that
`year_min ≤ year_max` — the issued discovery request bounds the date range by
January 1 of `year_min` and December 31 of `year_max`. -/
theorem C7_date_bounds (μ : Type) (apiKey : String)
    (fetch : DiscoverParams → Except String (Nat × DiscoverResponse μ))
    (keyword_ids : List Int) (h : keyword_ids ≠ []) (require_all : Bool)
    (language region : String) (vote_count_gte year_min year_max page : Int)
    (sort_by : String) :
    (discover_movies μ apiKey fetch keyword_ids require_all language region
        vote_count_gte year_min year_max page sort_by).2.map
          (fun p => (p.primary_release_date_gte, p.primary_release_date_lte))
      = [(toString year_min ++ "-01-01", toString year_max ++ "-12-31")] := by
  rw [discover_movies_nonempty μ apiKey fetch keyword_ids h]
  simp [discoverParams]

/-- C7 witness: instantiated at the inverted range `year_min = 2020`,
`year_max = 1999`, the request is still issued with both bounds, showing the
component performs no `year_min ≤ year_max` validation. -/
theorem C7_date_bounds_witness :
    (discover_movies Unit "k" (fun _ => .error "down") [5] true "en-US" "CH"
        200 2020 1999 1 "vote_average.desc").2.map
          (fun p => (p.primary_release_date_gte, p.primary_release_date_lte))
      = [((2020 : Int).repr ++ "-01-01", (1999 : Int).repr ++ "-12-31")] :=
  C7_date_bounds Unit "k" (fun _ => .error "down") [5] (by decide) true "en-US"
    "CH" 200 2020 1999 1 "vote_average.desc"

theorem tmdb_get_of_key_present {α : Type} (apiKey : String) (h : apiKey ≠ "")
    (fetch : Except String (Nat × α)) :
    tmdb_get apiKey fetch = raise_for_status fetch := by
  have hb : (apiKey == "") = false := by
    simp [h]
  cases hc : bearerAuth apiKey <;> simp [tmdb_get, hc, hb]

/-- C9: with a configured key and a non-empty identifier list, a transport
failure or a non-success HTTP status (4xx/5xx) during discovery propagates to
the caller of `discover_movies` as the corresponding single `TmdbError`,
alongside the one issued request — neither `tmdb_get` nor `discover_movies`
absorbs it. -/
theorem C9_discover_error_propagates (μ : Type) (apiKey : String)
    (hkey : apiKey ≠ "")
    (fetch : DiscoverParams → Except String (Nat × DiscoverResponse μ))
    (keyword_ids : List Int) (h : keyword_ids ≠ []) (require_all : Bool)
    (language region : String) (vote_count_gte year_min year_max page : Int)
    (sort_by : String) :
    (∀ msg, fetch (discoverParams keyword_ids require_all language region
          vote_count_gte year_min year_max page sort_by) = .error msg →
        discover_movies μ apiKey fetch keyword_ids require_all language region
            vote_count_gte year_min year_max page sort_by
          = (.error (.transport msg),
             [discoverParams keyword_ids require_all language region
                vote_count_gte year_min year_max page sort_by])) ∧
    (∀ status body, fetch (discoverParams keyword_ids require_all language region
          vote_count_gte year_min year_max page sort_by) = .ok (status, body) →
        400 ≤ status → status < 600 →
        discover_movies μ apiKey fetch keyword_ids require_all language region
            vote_count_gte year_min year_max page sort_by
          = (.error (.httpStatus status),
             [discoverParams keyword_ids require_all language region
                vote_count_gte year_min year_max page sort_by])) := by
  rw [discover_movies_nonempty μ apiKey fetch keyword_ids h]
  constructor
  · intro msg hmsg
    rw [tmdb_get_of_key_present apiKey hkey, hmsg]
    rfl
  · intro status body hok h4 h6
    rw [tmdb_get_of_key_present apiKey hkey, hok]
    simp [raise_for_status, h4, h6]

/-- C9 witness: a concrete transport failure (`"connection reset"`) on the one
issued request is returned unchanged as `TmdbError.transport` by
`discover_movies` at identifiers `[5]`. -/
theorem C9_discover_error_propagates_witness :
    discover_movies Unit "k" (fun _ => .error "connection reset") [5] true
        "en-US" "CH" 200 1950 2025 1 "vote_average.desc"
      = (.error (.transport "connection reset"),
         [discoverParams [5] true "en-US" "CH" 200 1950 2025 1
            "vote_average.desc"]) :=
  (C9_discover_error_propagates Unit "k" (by decide)
      (fun _ => .error "connection reset") [5] (by decide) true "en-US" "CH"
      200 1950 2025 1 "vote_average.desc").1
    "connection reset" rfl

/-- One provider object of a watch-providers response; the code reads
`prov.get("provider_name")`. -/
structure ProviderEntry where
  provider_name : Option String
deriving DecidableEq

/-- One region's sub-object of a watch-providers response, with the five
category keys the code scans; each is read with `entry.get(k, []) or []`, so
an absent or null category yields the empty list. -/
structure RegionEntry where
  flatrate : Option (List ProviderEntry)
  rent : Option (List ProviderEntry)
  buy : Option (List ProviderEntry)
  ads : Option (List ProviderEntry)
  free : Option (List ProviderEntry)
deriving DecidableEq

/-- The empty region sub-object, default of `results.get(watch_region, {})`. -/
def emptyRegionEntry : RegionEntry :=
  { flatrate := none, rent := none, buy := none, ads := none, free := none }

/-- Body of a `/movie/{id}/watch/providers` response: `results` keyed by
region code. -/
structure ProvidersResponse where
  results : Option (List (String × RegionEntry))
deriving DecidableEq

/-- Embedding of `results.get(watch_region, {})` (source line 138). -/
def regionEntryOf (data : ProvidersResponse) (watch_region : String) : RegionEntry :=
  match (data.results.getD []).find? (fun p => p.1 == watch_region) with
  | some p => p.2
  | none => emptyRegionEntry

/-- The providers of one region flattened in the fixed category scan order of
the source's loop (line 140): flatrate, rent, buy, ads, free. -/
def regionProviders (entry : RegionEntry) : List ProviderEntry :=
  entry.flatrate.getD [] ++ entry.rent.getD [] ++ entry.buy.getD [] ++
    entry.ads.getD [] ++ entry.free.getD []

/-- The raw `providers` list built by the source's double loop (lines
139-142): each provider's `provider_name` field, possibly absent, in category
scan order. -/
def providerNamesRaw (entry : RegionEntry) : List (Option String) :=
  (regionProviders entry).map (fun p => p.provider_name)

/-- The deduplication loop of `get_watch_providers` (source lines 143-149):
keep a name if it is truthy (present and non-empty) and not seen before. -/
def dedupLoop (seen : List String) : List (Option String) → List String
  | [] => []
  | none :: rest => dedupLoop seen rest
  | some p :: rest =>
      if (p != "") && !(seen.contains p) then
        p :: dedupLoop (p :: seen) rest
      else
        dedupLoop seen rest

/-- Embedding of `get_watch_providers` (source lines 130-150) without its
`lru_cache` wrapper: any error raised by `tmdb_get` is caught and yields `[]`;
otherwise the region's categories are flattened and deduplicated. -/
def get_watch_providers (apiKey : String)
    (fetch : Int → Except String (Nat × ProvidersResponse)) (movie_id : Int)
    (watch_region : String) : List String :=
  match tmdb_get apiKey (fetch movie_id) with
  | .error _ => []
  | .ok data => dedupLoop [] (providerNamesRaw (regionEntryOf data watch_region))

/-- Modelled from the spec ("Deduplicates by provider name while preserving
first-seen order across categories"): generic first-seen-order deduplication
of a list of names, to be compared with the code's `dedupLoop`. -/
def dedupFirstSeenAux (seen : List String) : List String → List String
  | [] => []
  | p :: rest =>
      if seen.contains p then dedupFirstSeenAux seen rest
      else p :: dedupFirstSeenAux (p :: seen) rest

/-- Modelled from the spec: first-seen-order deduplication from an empty
seen-set. -/
def dedupFirstSeen (l : List String) : List String := dedupFirstSeenAux [] l

/-- The provider names of one region concatenated in the fixed category scan
order, as the specification describes the flattening. -/
def specProviderNames (entry : RegionEntry) : List String :=
  (regionProviders entry).filterMap (fun p => p.provider_name)

theorem dedupLoop_eq_dedupFirstSeenAux :
    ∀ (l : List (Option String)) (seen : List String),
      (∀ o ∈ l, o ≠ none ∧ o ≠ some "") →
      dedupLoop seen l = dedupFirstSeenAux seen (l.filterMap id) := by
  intro l
  induction l with
  | nil => intro seen _; rfl
  | cons o rest ih =>
      intro seen hwf
      cases o with
      | none => exact absurd rfl (hwf none (List.mem_cons_self _ _)).1
      | some p =>
          have hp : p ≠ "" := by
            intro hcontra
            exact (hwf (some p) (List.mem_cons_self _ _)).2 (by rw [hcontra])
          have hrest : ∀ o ∈ rest, o ≠ none ∧ o ≠ some "" :=
            fun o ho => hwf o (List.mem_cons_of_mem _ ho)
          have hpb : (p != "") = true := by simp [hp]
          by_cases hc : p ∈ seen
          · simp [dedupLoop, dedupFirstSeenAux, hpb, hc, ih seen hrest]
          · simp [dedupLoop, dedupFirstSeenAux, hpb, hc, ih seen hrest,
              ih (p :: seen) hrest]

/-- The stubbed providers response of the specification's test vector:
region `"CH"` with `flatrate: [Netflix]` and `buy: [Netflix, Apple TV]`. -/
def chStubResponse : ProvidersResponse :=
  { results := some [("CH",
      { flatrate := some [{ provider_name := some "Netflix" }]
        rent := none
        buy := some [{ provider_name := some "Netflix" },
                     { provider_name := some "Apple TV" }]
        ads := none
        free := none })] }

/-- A stub service answering every watch-providers request with status 200 and
`chStubResponse`. -/
def chStubFetch : Int → Except String (Nat × ProvidersResponse) :=
  fun _ => .ok (200, chStubResponse)

/-- C2: on every successful lookup whose region entry names all its providers
(present, non-empty names), `get_watch_providers` returns the first-seen-order
deduplication of the provider names concatenated in the fixed category order
flatrate, rent, buy, ads, free; on the specification's `"CH"` stub it returns
`["Netflix", "Apple TV"]`. -/
theorem C2_provider_flattening :
    (∀ (apiKey : String) (fetch : Int → Except String (Nat × ProvidersResponse))
       (movie_id : Int) (region : String) (data : ProvidersResponse),
       tmdb_get apiKey (fetch movie_id) = .ok data →
       (∀ p ∈ regionProviders (regionEntryOf data region),
          p.provider_name ≠ none ∧ p.provider_name ≠ some "") →
       get_watch_providers apiKey fetch movie_id region
         = dedupFirstSeen (specProviderNames (regionEntryOf data region))) ∧
    get_watch_providers "k" chStubFetch 42 "CH" = ["Netflix", "Apple TV"] := by
  constructor
  · intro apiKey fetch movie_id region data hok hwf
    have hwf2 : ∀ o ∈ providerNamesRaw (regionEntryOf data region),
        o ≠ none ∧ o ≠ some "" := by
      intro o ho
      rcases List.mem_map.mp ho with ⟨p, hp, hpo⟩
      exact hpo ▸ hwf p hp
    have h1 : get_watch_providers apiKey fetch movie_id region
        = dedupLoop [] (providerNamesRaw (regionEntryOf data region)) := by
      simp [get_watch_providers, hok]
    rw [h1,
      dedupLoop_eq_dedupFirstSeenAux (providerNamesRaw (regionEntryOf data region)) [] hwf2]
    have h2 : (providerNamesRaw (regionEntryOf data region)).filterMap id
        = specProviderNames (regionEntryOf data region) := by
      simp [providerNamesRaw, specProviderNames, List.filterMap_map]
    rw [h2, dedupFirstSeen]
  · decide

/-- C2 witness: the general flattening law applied to the concrete `"CH"`
stub response. -/
theorem C2_provider_flattening_witness :
    get_watch_providers "k" chStubFetch 42 "CH"
      = dedupFirstSeen (specProviderNames (regionEntryOf chStubResponse "CH")) :=
  C2_provider_flattening.1 "k" chStubFetch 42 "CH" chStubResponse (by decide)
    (by decide)

/-- C3: the watch-availability lookup absorbs every failure: if `tmdb_get`
raises (transport error, HTTP error status, missing key), the result is `[]`,
and if the response carries no entry for the requested region (in particular
when its `results` key is absent), the result is also `[]`; the embedding is a
total function, so no error ever reaches the caller. -/
theorem C3_providers_failures_absorbed :
    (∀ (apiKey : String) (fetch : Int → Except String (Nat × ProvidersResponse))
       (movie_id : Int) (region : String) (e : TmdbError),
       tmdb_get apiKey (fetch movie_id) = .error e →
       get_watch_providers apiKey fetch movie_id region = []) ∧
    (∀ (apiKey : String) (fetch : Int → Except String (Nat × ProvidersResponse))
       (movie_id : Int) (region : String) (data : ProvidersResponse),
       tmdb_get apiKey (fetch movie_id) = .ok data →
       (∀ p ∈ data.results.getD [], p.1 ≠ region) →
       get_watch_providers apiKey fetch movie_id region = []) := by
  constructor
  · intro apiKey fetch movie_id region e he
    simp [get_watch_providers, he]
  · intro apiKey fetch movie_id region data hok habsent
    have hfind : (data.results.getD []).find? (fun p => p.1 == region) = none := by
      apply List.find?_eq_none.mpr
      intro p hp
      simp [habsent p hp]
    have hentry : regionEntryOf data region = emptyRegionEntry := by
      simp [regionEntryOf, hfind]
    simp [get_watch_providers, hok, hentry, providerNamesRaw, regionProviders,
      emptyRegionEntry, dedupLoop]

/-- C3 witness: a concrete transport failure (`"timeout"`) and a concrete
response whose only region is `"US"`, both queried for region `"CH"`, yield
`[]`. -/
theorem C3_providers_failures_absorbed_witness :
    get_watch_providers "k" (fun _ => .error "timeout") 42 "CH" = [] ∧
    get_watch_providers "k"
        (fun _ => .ok (200, { results := some [("US", emptyRegionEntry)] })) 42 "CH"
      = [] :=
  ⟨C3_providers_failures_absorbed.1 "k" (fun _ => .error "timeout") 42 "CH"
      (.transport "timeout") rfl,
   C3_providers_failures_absorbed.2 "k"
      (fun _ => .ok (200, { results := some [("US", emptyRegionEntry)] })) 42 "CH"
      { results := some [("US", emptyRegionEntry)] } (by decide) (by decide)⟩

/-- Capacity of the memoization cache on `search_keyword_id`:
`@lru_cache(maxsize=2048)` (source line 70). -/
def lruMaxsize : Nat := 2048

/-- The keys of a cache state, most recently used first. -/
def lruKeys (c : List (String × Option Int)) : List String := c.map Prod.fst

/-- One call through the `lru_cache` wrapper of `search_keyword_id` (source
lines 70-71): a hit returns the cached value, promotes the entry to most
recently used and issues no outbound call; a miss invokes the underlying
resolver `svc` (one outbound call), inserts the result as most recently used
and evicts the least recently used entry if the capacity is exceeded. The
result is the returned value, the new cache state, and whether an outbound
call was issued. -/
def lruCall (svc : String → Option Int) (c : List (String × Option Int))
    (k : String) : Option Int × List (String × Option Int) × Bool :=
  match c.find? (fun e => e.1 == k) with
  | some e => (e.2, (k, e.2) :: c.eraseP (fun e => e.1 == k), false)
  | none => (svc k, ((k, svc k) :: c).take lruMaxsize, true)

/-- Run a sequence of memoized `search_keyword_id` calls from a cache state
and record, in order, the inputs for which an outbound call to the external
service was issued. -/
def lruRunCalls (svc : String → Option Int) (c : List (String × Option Int)) :
    List String → List String
  | [] => []
  | k :: rest =>
      if (lruCall svc c k).2.2 then
        k :: lruRunCalls svc (lruCall svc c k).2.1 rest
      else
        lruRunCalls svc (lruCall svc c k).2.1 rest

theorem lruCall_of_find?_none (svc : String → Option Int)
    (c : List (String × Option Int)) (k : String)
    (h : c.find? (fun e => e.1 == k) = none) :
    lruCall svc c k = (svc k, ((k, svc k) :: c).take lruMaxsize, true) := by
  simp [lruCall, h]

theorem lruCall_of_find?_some (svc : String → Option Int)
    (c : List (String × Option Int)) (k : String) (e : String × Option Int)
    (h : c.find? (fun e => e.1 == k) = some e) :
    lruCall svc c k = (e.2, (k, e.2) :: c.eraseP (fun e => e.1 == k), false) := by
  simp [lruCall, h]

theorem not_mem_lruKeys_of_find?_none (c : List (String × Option Int))
    (k : String) (h : c.find? (fun e => e.1 == k) = none) : k ∉ lruKeys c := by
  intro hk
  rcases List.mem_map.mp hk with ⟨e, he, hek⟩
  have := List.find?_eq_none.mp h e he
  simp [hek] at this

theorem lruKeys_nil : lruKeys [] = [] := rfl

theorem lruKeys_cons (e : String × Option Int) (t : List (String × Option Int)) :
    lruKeys (e :: t) = e.1 :: lruKeys t := rfl

theorem mem_lruKeys_eraseP_of_ne (c : List (String × Option Int))
    (k a : String) (hne : a ≠ k) (ha : a ∈ lruKeys c) :
    a ∈ lruKeys (c.eraseP (fun e => e.1 == k)) := by
  induction c with
  | nil => simp [lruKeys_nil] at ha
  | cons e t ih =>
      rw [lruKeys_cons] at ha
      by_cases hek : e.1 = k
      · have hbk : (e.1 == k) = true := by simp [hek]
        simp only [List.eraseP_cons, hbk, cond_true]
        rcases List.mem_cons.mp ha with hae | hat
        · exact absurd (hae.trans hek) hne
        · exact hat
      · have hbk : (e.1 == k) = false := by simp [hek]
        simp only [List.eraseP_cons, hbk, cond_false, lruKeys_cons]
        rcases List.mem_cons.mp ha with hae | hat
        · exact hae ▸ List.mem_cons_self _ _
        · exact List.mem_cons_of_mem _ (ih hat)

theorem not_mem_lruKeys_eraseP (c : List (String × Option Int)) (k : String)
    (hnd : (lruKeys c).Nodup) :
    k ∉ lruKeys (c.eraseP (fun e => e.1 == k)) := by
  induction c with
  | nil => simp [lruKeys_nil]
  | cons e t ih =>
      rw [lruKeys_cons] at hnd
      have hnd1 : e.1 ∉ lruKeys t := (List.nodup_cons.mp hnd).1
      have hnd2 : (lruKeys t).Nodup := (List.nodup_cons.mp hnd).2
      by_cases hek : e.1 = k
      · have hbk : (e.1 == k) = true := by simp [hek]
        simp only [List.eraseP_cons, hbk, cond_true]
        rw [← hek]
        exact hnd1
      · have hbk : (e.1 == k) = false := by simp [hek]
        simp only [List.eraseP_cons, hbk, cond_false, lruKeys_cons]
        intro hmem
        rcases List.mem_cons.mp hmem with hk1 | hk2
        · exact hek hk1.symm
        · exact ih hnd2 hk2

theorem lruKeys_eraseP_sublist (c : List (String × Option Int)) (k : String) :
    List.Sublist (lruKeys (c.eraseP (fun e => e.1 == k))) (lruKeys c) :=
  List.Sublist.map Prod.fst (List.eraseP_sublist c)

theorem mem_lruKeys_hit (c : List (String × Option Int)) (k : String)
    (e : String × Option Int) (hfind : c.find? (fun e => e.1 == k) = some e)
    (a : String) :
    a ∈ lruKeys ((k, e.2) :: c.eraseP (fun e => e.1 == k)) ↔ a ∈ lruKeys c := by
  have hek : e.1 = k := by
    have := List.find?_some hfind
    simpa using this
  have hmem : e ∈ c := List.mem_of_find?_eq_some hfind
  rw [lruKeys_cons]
  constructor
  · intro ha
    rcases List.mem_cons.mp ha with hak | hatail
    · rw [hak, ← hek]
      exact List.mem_map_of_mem Prod.fst hmem
    · exact (lruKeys_eraseP_sublist c k).subset hatail
  · intro ha
    by_cases hak : a = k
    · rw [hak]
      exact List.mem_cons_self _ _
    · exact List.mem_cons_of_mem _ (mem_lruKeys_eraseP_of_ne c k a hak ha)

theorem lruRunCalls_count (svc : String → Option Int) :
    ∀ (ks : List String) (c : List (String × Option Int)),
      (lruKeys c).Nodup →
      ((lruKeys c).toFinset ∪ ks.toFinset).card ≤ lruMaxsize →
      ∀ k, (k ∈ lruKeys c → (lruRunCalls svc c ks).count k = 0) ∧
        (lruRunCalls svc c ks).count k ≤ 1 := by
  intro ks
  induction ks with
  | nil => intro c _ _ k; simp [lruRunCalls]
  | cons a rest ih =>
      intro c hnd hcard k
      cases hfind : c.find? (fun e => e.1 == a) with
      | some e =>
          -- cache hit: no outbound call, the key set is unchanged
          have hrun : lruRunCalls svc c (a :: rest)
              = lruRunCalls svc ((a, e.2) :: c.eraseP (fun e => e.1 == a)) rest := by
            simp [lruRunCalls, lruCall_of_find?_some svc c a e hfind]
          have hmemiff := mem_lruKeys_hit c a e hfind
          have hnd2 : (lruKeys ((a, e.2) :: c.eraseP (fun e => e.1 == a))).Nodup := by
            rw [lruKeys_cons]
            exact List.nodup_cons.mpr ⟨not_mem_lruKeys_eraseP c a hnd,
              List.Nodup.sublist (lruKeys_eraseP_sublist c a) hnd⟩
          have hfs : (lruKeys ((a, e.2) :: c.eraseP (fun e => e.1 == a))).toFinset
              = (lruKeys c).toFinset := by
            ext x
            simp only [List.mem_toFinset]
            exact hmemiff x
          have hcard2 : ((lruKeys ((a, e.2) :: c.eraseP (fun e => e.1 == a))).toFinset
              ∪ rest.toFinset).card ≤ lruMaxsize := by
            rw [hfs]
            refine le_trans (Finset.card_le_card ?_) hcard
            intro x hx
            rcases Finset.mem_union.mp hx with hx | hx
            · exact Finset.mem_union_left _ hx
            · refine Finset.mem_union_right _ ?_
              rw [List.toFinset_cons]
              exact Finset.mem_insert_of_mem hx
          have hih := ih ((a, e.2) :: c.eraseP (fun e => e.1 == a)) hnd2 hcard2 k
          rw [hrun]
          exact ⟨fun hk => hih.1 ((hmemiff k).mpr hk), hih.2⟩
      | none =>
          -- cache miss: one outbound call for `a`; no eviction occurs because
          -- the number of distinct keys stays within the capacity
          have hknotin : a ∉ lruKeys c := not_mem_lruKeys_of_find?_none c a hfind
          have hknotinF : a ∉ (lruKeys c).toFinset :=
            fun hx => hknotin (List.mem_toFinset.mp hx)
          have hlen : c.length = (lruKeys c).toFinset.card := by
            rw [List.toFinset_card_of_nodup hnd]
            simp [lruKeys]
          have hsub : insert a (lruKeys c).toFinset
              ⊆ (lruKeys c).toFinset ∪ (a :: rest).toFinset := by
            intro x hx
            rcases Finset.mem_insert.mp hx with hx | hx
            · exact Finset.mem_union_right _ (by simp [hx])
            · exact Finset.mem_union_left _ hx
          have hlen2 : (lruKeys c).toFinset.card + 1 ≤ lruMaxsize := by
            calc (lruKeys c).toFinset.card + 1
                = (insert a (lruKeys c).toFinset).card :=
                  (Finset.card_insert_of_not_mem hknotinF).symm
              _ ≤ ((lruKeys c).toFinset ∪ (a :: rest).toFinset).card :=
                  Finset.card_le_card hsub
              _ ≤ lruMaxsize := hcard
          have htake : ((a, svc a) :: c).take lruMaxsize = (a, svc a) :: c := by
            apply List.take_of_length_le
            simpa [hlen] using hlen2
          have hrun : lruRunCalls svc c (a :: rest)
              = a :: lruRunCalls svc ((a, svc a) :: c) rest := by
            simp [lruRunCalls, lruCall_of_find?_none svc c a hfind, htake]
          have hkeys2 : lruKeys ((a, svc a) :: c) = a :: lruKeys c := rfl
          have hnd2 : (lruKeys ((a, svc a) :: c)).Nodup := by
            rw [hkeys2]
            exact List.nodup_cons.mpr ⟨hknotin, hnd⟩
          have hcard2 : ((lruKeys ((a, svc a) :: c)).toFinset ∪ rest.toFinset).card
              ≤ lruMaxsize := by
            have hset : (lruKeys ((a, svc a) :: c)).toFinset ∪ rest.toFinset
                = (lruKeys c).toFinset ∪ (a :: rest).toFinset := by
              rw [hkeys2, List.toFinset_cons, List.toFinset_cons,
                Finset.insert_union, Finset.union_insert]
            rw [hset]
            exact hcard
          have hih := ih ((a, svc a) :: c) hnd2 hcard2 k
          rw [hrun]
          by_cases hka : k = a
          · subst hka
            have hmema : k ∈ lruKeys ((k, svc k) :: c) := by
              rw [hkeys2]
              exact List.mem_cons_self _ _
            have hzero := hih.1 hmema
            constructor
            · intro hk
              exact absurd hk hknotin
            · simp [List.count_cons_self, hzero]
          · have hcnt : (a :: lruRunCalls svc ((a, svc a) :: c) rest).count k
                = (lruRunCalls svc ((a, svc a) :: c) rest).count k :=
              List.count_cons_of_ne hka _
            constructor
            · intro hk
              rw [hcnt]
              apply hih.1
              rw [hkeys2]
              exact List.mem_cons_of_mem _ hk
            · rw [hcnt]
              exact hih.2

theorem lruCall_head (svc : String → Option Int) (c : List (String × Option Int))
    (k : String) :
    ∃ t, (lruCall svc c k).2.1 = (k, (lruCall svc c k).1) :: t := by
  cases hfind : c.find? (fun e => e.1 == k) with
  | some e =>
      refine ⟨c.eraseP (fun e => e.1 == k), ?_⟩
      rw [lruCall_of_find?_some svc c k e hfind]
  | none =>
      refine ⟨c.take 2047, ?_⟩
      rw [lruCall_of_find?_none svc c k hfind]
      rfl

/-- C8: the `lru_cache` memoization of `search_keyword_id`. First, from any
cache state, a second call with the byte-identical string immediately after a
first one is a cache hit: it issues no outbound call and returns the value of
the first call. Second, over any whole-process call sequence that uses at most
`lruMaxsize` (2048) distinct strings — the app's keyword universe is the under
100 distinct `MOOD_MAP` entries, so no eviction ever occurs — each string
triggers at most one outbound call to the external service, however often and
wherever it recurs in the sequence. -/
theorem C8_memoized_at_most_one_call (svc : String → Option Int) :
    (∀ (c : List (String × Option Int)) (k : String),
       (lruCall svc ((lruCall svc c k).2.1) k).2.2 = false ∧
       (lruCall svc ((lruCall svc c k).2.1) k).1 = (lruCall svc c k).1) ∧
    (∀ (ks : List String) (k : String),
       ks.toFinset.card ≤ lruMaxsize →
       (lruRunCalls svc [] ks).count k ≤ 1) := by
  constructor
  · intro c k
    obtain ⟨t, ht⟩ := lruCall_head svc c k
    have hfind : ((k, (lruCall svc c k).1) :: t).find? (fun e => e.1 == k)
        = some (k, (lruCall svc c k).1) :=
      List.find?_cons_of_pos _ (by simp)
    rw [ht, lruCall_of_find?_some svc _ k _ hfind]
    exact ⟨rfl, rfl⟩
  · intro ks k hcard
    refine (lruRunCalls_count svc ks [] (by simp [lruKeys_nil]) ?_ k).2
    simpa [lruKeys_nil] using hcard

/-- C8 witness: with a stub resolver, the second of two consecutive calls for
`"drama"` is served from the cache (no outbound call), and the run
`["drama", "drama"]` from a cold cache issues at most one outbound call for
`"drama"`. -/
theorem C8_memoized_at_most_one_call_witness :
    (lruCall (fun _ => some 99)
        ((lruCall (fun _ => some 99) [] "drama").2.1) "drama").2.2 = false ∧
    (lruRunCalls (fun _ => some 99) [] ["drama", "drama"]).count "drama" ≤ 1 :=
  ⟨((C8_memoized_at_most_one_call (fun _ => some 99)).1 [] "drama").1,
   (C8_memoized_at_most_one_call (fun _ => some 99)).2 ["drama", "drama"] "drama"
     (by decide)⟩

end StreamlitApp
